import Mathlib

/-!
# Verification of the Play-Store data pipeline (transform / aggregate components)

Shallow embedding of the transform and aggregation components of the
repository (src/transform/transform_data.py, compute_app_kpis.py,
compute_daily_metrics.py, flag_inconsistent_sentiment.py) together with
proofs of the spec claims about them.

JSON/Python runtime values are modelled by the inductive `PyVal`; Python
floats are idealized as rationals (exact for every value the claims touch);
Python exceptions are modelled with `Except PyErr`.
-/

namespace Pipeline

/-- A Python/JSON scalar runtime value, as the pipeline sees it: `None`,
bool, int, float (idealized as an exact rational), or str.  Mappings are
modelled as Lean structures with `PyVal` fields; list-valued fields are not
touched by the verified code paths. -/
inductive PyVal where
  | none : PyVal
  | bool : Bool → PyVal
  | int : Int → PyVal
  | float : ℚ → PyVal
  | str : String → PyVal
  deriving Repr, DecidableEq

/-- Python errors that the modelled code can raise. -/
inductive PyErr where
  | valueError : PyErr
  | typeError : PyErr
  | jsonDecodeError : PyErr
  deriving Repr, DecidableEq

/-- Python truthiness (`bool(v)`): `None`/`False`/`0`/`0.0`/`""`/`[]` are
falsy, everything else truthy. -/
def pyTruthy : PyVal → Bool
  | .none => false
  | .bool b => b
  | .int n => n != 0
  | .float q => q != 0
  | .str s => s != ""

/-- Whitespace characters stripped by Python `str.strip()` (ASCII subset). -/
def pySpace (c : Char) : Bool :=
  c == ' ' || c == '\t' || c == '\n' || c == '\r' || c == '\x0b' || c == '\x0c'

/-- Strip leading and trailing whitespace from a char list (`str.strip()`). -/
def pyStripList (cs : List Char) : List Char :=
  ((cs.dropWhile pySpace).reverse.dropWhile pySpace).reverse

/-- `str.strip()` on strings. -/
def pyStrip (s : String) : String :=
  ⟨pyStripList s.data⟩

/-- Decimal digit value of a char (digits only; callers guard with `isDigit`). -/
def dval (c : Char) : Nat := c.toNat - 48

/-- Digit run with Python's underscore rule (`1_000` ok, `1__0`/`1_`/`_1` not):
continues an already-started digit run, accumulating the value. -/
def goDigits (acc : Nat) : List Char → Option Nat
  | [] => some acc
  | c :: rest =>
    if c = '_' then
      match rest with
      | [] => Option.none
      | d :: rest' =>
        if d.isDigit then goDigits (acc * 10 + dval d) rest' else Option.none
    else if c.isDigit then goDigits (acc * 10 + dval c) rest else Option.none

/-- A full digit run (must start with a digit, underscores allowed between digits). -/
def digitsU : List Char → Option Nat
  | [] => Option.none
  | c :: rest => if c.isDigit then goDigits (dval c) rest else Option.none

/-- Python `int(s)` on a string: strip whitespace, optional sign, decimal digits
(with underscore grouping); anything else raises `ValueError`. -/
def parseIntStr (s : String) : Except PyErr Int :=
  match pyStripList s.data with
  | [] => .error .valueError
  | c :: rest =>
    let signed : Int × List Char :=
      if c = '+' then (1, rest) else if c = '-' then (-1, rest) else (1, c :: rest)
    match digitsU signed.2 with
    | some n => .ok (signed.1 * n)
    | Option.none => .error .valueError

/-- Truncation toward zero of a rational, as Python `int(float)`. -/
def truncRat (q : ℚ) : Int := q.num.tdiv q.den

/-- Python `int(v)`: ints pass through, bools map to 0/1, floats truncate,
strings parse as decimal integers; `None` and lists raise. -/
def pyInt : PyVal → Except PyErr Int
  | .none => .error .typeError
  | .bool b => .ok (if b then 1 else 0)
  | .int n => .ok n
  | .float q => .ok (truncRat q)
  | .str s => parseIntStr s

/-- `safe_int` (transform_data.py): `None` maps to `None`; otherwise `int(v)`,
with any exception caught and turned into `None`. -/
def safe_int (v : PyVal) : Option Int :=
  match v with
  | .none => Option.none
  | _ =>
    match pyInt v with
    | .ok n => some n
    | .error _ => Option.none

/-- A parsed (naive) datetime, as produced by `datetime.strptime`. -/
structure DT where
  year : Nat
  month : Nat
  day : Nat
  hour : Nat
  minute : Nat
  second : Nat
  deriving Repr, DecidableEq

/-- Gregorian leap-year rule. -/
def isLeap (y : Nat) : Bool :=
  y % 4 == 0 && (y % 100 != 0 || y % 400 == 0)

/-- Days in a month (month 1–12). -/
def daysInMonth (y m : Nat) : Nat :=
  if m = 2 then (if isLeap y then 29 else 28)
  else if m = 4 ∨ m = 6 ∨ m = 9 ∨ m = 11 then 30
  else 31

/-- The validation the `datetime` constructor performs on parsed fields
(`MINYEAR ≤ year ≤ MAXYEAR`, month/day/hour/minute/second ranges; a
second of 60/61 from `%S` is likewise rejected by `datetime`). -/
def validDT (t : DT) : Bool :=
  1 ≤ t.year && t.year ≤ 9999 && 1 ≤ t.month && t.month ≤ 12 &&
  1 ≤ t.day && t.day ≤ daysInMonth t.year t.month &&
  t.hour ≤ 23 && t.minute ≤ 59 && t.second ≤ 59

/-- Exactly `k` more digits (the `%Y` directive matches four digits). -/
def pExactDigits : Nat → Nat → List Char → Option (Nat × List Char)
  | 0, acc, cs => some (acc, cs)
  | _ + 1, _, [] => Option.none
  | k + 1, acc, c :: cs =>
    if c.isDigit then pExactDigits k (acc * 10 + dval c) cs else Option.none

/-- One or two digits, greedily (the `%m`/`%d`/`%H`/`%M`/`%S` directives;
with a non-digit separator following, greedy matching plus the range check
in `validDT` coincides with CPython's alternation regexes). -/
def pDigits12 : List Char → Option (Nat × List Char)
  | [] => Option.none
  | [c] => if c.isDigit then some (dval c, []) else Option.none
  | c :: d :: cs =>
    if c.isDigit then
      if d.isDigit then some (dval c * 10 + dval d, cs)
      else some (dval c, d :: cs)
    else Option.none

/-- A literal character of the format string. -/
def pLit (x : Char) : List Char → Option (List Char)
  | [] => Option.none
  | c :: cs => if c = x then some cs else Option.none

/-- A whitespace character in the format matches a run of whitespace
(`strptime` compiles it to `\s+`). -/
def pSpaces1 : List Char → Option (List Char)
  | [] => Option.none
  | c :: cs => if pySpace c then some (cs.dropWhile pySpace) else Option.none

/-- Raw (unvalidated) parse of the exact `"%Y-%m-%d %H:%M:%S"` format,
anchored and requiring the whole string to be consumed. -/
def rawYmdHms (cs : List Char) : Option DT := do
  let (y, cs) ← pExactDigits 4 0 cs
  let cs ← pLit '-' cs
  let (m, cs) ← pDigits12 cs
  let cs ← pLit '-' cs
  let (d, cs) ← pDigits12 cs
  let cs ← pSpaces1 cs
  let (h, cs) ← pDigits12 cs
  let cs ← pLit ':' cs
  let (mi, cs) ← pDigits12 cs
  let cs ← pLit ':' cs
  let (s, cs) ← pDigits12 cs
  if cs.isEmpty then some ⟨y, m, d, h, mi, s⟩ else Option.none

/-- `datetime.strptime(s, "%Y-%m-%d %H:%M:%S")`, returning the parsed
fields on success and `none` where Python raises `ValueError`. -/
def strptimeYmdHms (s : String) : Option DT :=
  match rawYmdHms s.data with
  | some t => if validDT t then some t else Option.none
  | Option.none => Option.none

/-- ASCII lower-casing of one character (`str.lower()`; the verified
inputs are ASCII). -/
def asciiLowerChar (c : Char) : Char :=
  if 65 ≤ c.toNat && c.toNat ≤ 90 then Char.ofNat (c.toNat + 32) else c

/-- ASCII lower-casing of a string. -/
def asciiLower (s : String) : String :=
  ⟨s.data.map asciiLowerChar⟩

/-- Abbreviated month names (`%b`, C locale). -/
def monthAbbrevs : List String :=
  ["jan", "feb", "mar", "apr", "may", "jun", "jul", "aug", "sep", "oct", "nov", "dec"]

/-- Full month names (`%B`, C locale). -/
def monthFulls : List String :=
  ["january", "february", "march", "april", "may", "june",
   "july", "august", "september", "october", "november", "december"]

/-- Case-insensitive month-name match (strptime compiles with IGNORECASE),
returning the 1-based month index and the remaining input. -/
def pNameIdx : List String → Nat → List Char → Option (Nat × List Char)
  | [], _, _ => Option.none
  | n :: rest, i, cs =>
    if (cs.take n.data.length).map asciiLowerChar = n.data then
      some (i, cs.drop n.data.length)
    else pNameIdx rest (i + 1) cs

/-- Raw parse of `"%b %d, %Y"` / `"%B %d, %Y"` (month names passed in),
yielding midnight of the parsed day. -/
def rawBdY (names : List String) (cs : List Char) : Option DT := do
  let (m, cs) ← pNameIdx names 1 cs
  let cs ← pSpaces1 cs
  let (d, cs) ← pDigits12 cs
  let cs ← pLit ',' cs
  let cs ← pSpaces1 cs
  let (y, cs) ← pExactDigits 4 0 cs
  if cs.isEmpty then some ⟨y, m, d, 0, 0, 0⟩ else Option.none

/-- `datetime.strptime(s, "%b %d, %Y")` (or `%B` with full names). -/
def strptimeBdY (names : List String) (s : String) : Option DT :=
  match rawBdY names s.data with
  | some t => if validDT t then some t else Option.none
  | Option.none => Option.none

/-- The digit character for `n % 10`. -/
def digitChar (n : Nat) : Char := Char.ofNat (48 + n % 10)

/-- `dt.replace(tzinfo=timezone.utc).isoformat()` for a validated datetime
with zero microseconds: `YYYY-MM-DDTHH:MM:SS+00:00` (25 characters). -/
def isoformatUTC (t : DT) : String :=
  ⟨[digitChar (t.year / 1000), digitChar (t.year / 100), digitChar (t.year / 10),
    digitChar t.year, '-', digitChar (t.month / 10), digitChar t.month,
    '-', digitChar (t.day / 10), digitChar t.day,
    'T', digitChar (t.hour / 10), digitChar t.hour,
    ':', digitChar (t.minute / 10), digitChar t.minute,
    ':', digitChar (t.second / 10), digitChar t.second,
    '+', '0', '0', ':', '0', '0']⟩

/-- Days from 1970-01-01 to the given civil date (Howard Hinnant's
`days_from_civil`, specialized to the validated range `year ≥ 1`). -/
def daysFromCivil (y m d : Nat) : Int :=
  let y' := if m ≤ 2 then y - 1 else y
  let era := y' / 400
  let yoe := y' - era * 400
  let mp := if 2 < m then m - 3 else m + 9
  let doy := (153 * mp + 2) / 5 + d - 1
  let doe := yoe * 365 + yoe / 4 - yoe / 100 + doy
  (era : Int) * 146097 + (doe : Int) - 719468

/-- `int(dt.timestamp())` for a UTC-aware datetime: seconds since the
Unix epoch. -/
def epochOf (t : DT) : Int :=
  daysFromCivil t.year t.month t.day * 86400 +
    (t.hour * 3600 + t.minute * 60 + t.second)

/-- `parse_human_datetime` (transform_data.py): try
`"%Y-%m-%d %H:%M:%S"`, `"%b %d, %Y"`, `"%B %d, %Y"` in order, returning
the UTC ISO string on the first success; on total failure fall back to the
original trimmed string; empty input yields `None`. -/
def parse_human_datetime (s : String) : Option String :=
  if s = "" then Option.none
  else
    match strptimeYmdHms s with
    | some t => some (isoformatUTC t)
    | Option.none =>
      match strptimeBdY monthAbbrevs s with
      | some t => some (isoformatUTC t)
      | Option.none =>
        match strptimeBdY monthFulls s with
        | some t => some (isoformatUTC t)
        | Option.none => some (pyStrip s)

/-- The `at`-handling block of `transform_reviews` (lines 212–225):
returns the pair `(at_iso, at_epoch)`. -/
def transformAt (v : PyVal) : PyVal × PyVal :=
  match v with
  | .str s =>
    if s ≠ "" then
      match strptimeYmdHms s with
      | some t => (.str (isoformatUTC t), .int (epochOf t))
      | Option.none =>
        (match parse_human_datetime s with
         | some t => PyVal.str t
         | Option.none => PyVal.none,
         PyVal.none)
    else (.none, .none)
  | _ => (.none, .none)

/-- The fields of a raw review record that `transform_reviews` rewrites. -/
structure RawReview where
  «at» : PyVal
  score : PyVal
  thumbsUpCount : PyVal
  deriving Repr, DecidableEq

/-- The rewritten fields of a processed review record, as JSON values. -/
structure ProcessedReview where
  «at» : PyVal
  at_iso : PyVal
  at_epoch : PyVal
  score : PyVal
  thumbsUpCount : PyVal
  deriving Repr, DecidableEq

/-- Embed an optional integer as the emitted JSON value. -/
def optIntVal : Option Int → PyVal
  | some n => .int n
  | Option.none => .none

/-- The per-record body of `transform_reviews`: timestamp parsing plus
`safe_int` coercion of `score` and `thumbsUpCount`; all other fields pass
through unchanged. -/
def transformReview (r : RawReview) : ProcessedReview :=
  let ae := transformAt r.«at»
  { «at» := r.«at»
    at_iso := ae.1
    at_epoch := ae.2
    score := optIntVal (safe_int r.score)
    thumbsUpCount := optIntVal (safe_int r.thumbsUpCount) }

/-! ## App metadata transformer: `normalize_installs` -/

/-- `re.search(r"([0-9,]+)\+?", s.replace(',', ''))` succeeds iff some
character of the comma-stripped string lies in the class `[0-9,]`
(equivalently: the string contains a digit). -/
def searchDigitsClass (s : String) : Bool :=
  (s.data.filter (fun c => c ≠ ',')).any (fun c => c.isDigit || c == ',')

/-- `re.sub(r"[^0-9]", "", s)`: keep only the digits. -/
def stripNonDigits (s : String) : String :=
  ⟨s.data.filter Char.isDigit⟩

/-- The fields of a raw app record that `normalize_installs` reads. -/
structure RawApp where
  minInstalls : PyVal
  realInstalls : PyVal
  installs : PyVal
  deriving Repr, DecidableEq

/-- `int(v) if v is not None else None` — the unguarded final conversion of
`normalize_installs`; a non-`None`, non-convertible value raises. -/
def finalizeInstall (v : PyVal) : Except PyErr PyVal :=
  match v with
  | .none => .ok .none
  | w => do
    let n ← pyInt w
    pure (.int n)

/-- `normalize_installs` (transform_data.py lines 77–91): returns the pair
of emitted `(minInstalls, realInstalls)` values, or the exception the
Python code would raise. -/
def normalize_installs (a : RawApp) : Except PyErr (PyVal × PyVal) := do
  let mi :=
    if !pyTruthy a.minInstalls then
      match a.installs with
      | .str s =>
        if searchDigitsClass s then
          match parseIntStr (stripNonDigits s) with
          | .ok n => PyVal.int n
          | .error _ => PyVal.none
        else a.minInstalls
      | _ => a.minInstalls
    else a.minInstalls
  let miOut ← finalizeInstall mi
  let riOut ← finalizeInstall a.realInstalls
  pure (miOut, riOut)

/-! ## Sentiment consistency flagger -/

/-- `NEGATIVE_TERMS` (flag_inconsistent_sentiment.py). -/
def NEGATIVE_TERMS : List String :=
  ["bad", "terrible", "horrible", "awful", "worst", "scam", "refund",
   "bug", "broken", "crash", "doesn't work", "doesnt work", "waste", "useless"]

/-- `POSITIVE_TERMS` (flag_inconsistent_sentiment.py). -/
def POSITIVE_TERMS : List String :=
  ["great", "excellent", "amazing", "love", "awesome", "fantastic",
   "perfect", "very good", "works well", "helpful"]

/-- Boolean prefix test on char lists. -/
def isPrefixB : List Char → List Char → Bool
  | [], _ => true
  | _ :: _, [] => false
  | a :: as, b :: bs => a == b && isPrefixB as bs

/-- Boolean substring test on char lists. -/
def containsSub (needle : List Char) : List Char → Bool
  | [] => needle.isEmpty
  | c :: cs => isPrefixB needle (c :: cs) || containsSub needle cs

/-- Python's `needle in hay` on strings (substring membership). -/
def pyIn (needle hay : String) : Bool :=
  containsSub needle.data hay.data

/-- `score_text` (flag_inconsistent_sentiment.py lines 43–51): −1 when
only negative terms match the lower-cased text, +1 when only positive
terms match, 0 otherwise. -/
def score_text (text : String) : Int :=
  let t := asciiLower text
  let neg := NEGATIVE_TERMS.any (fun term => pyIn term t)
  let pos := POSITIVE_TERMS.any (fun term => pyIn term t)
  if neg && !pos then -1
  else if pos && !neg then 1
  else 0

/-- The fields of a processed review record that the flagger reads
(`score` is an integer or null in the processed stream, `content` a string
or null). -/
structure FlagObj where
  reviewId : PyVal
  appId : PyVal
  score : Option Int
  content : Option String
  deriving Repr, DecidableEq

/-- `is_contradictory` (flag_inconsistent_sentiment.py lines 54–64). -/
def is_contradictory (r : FlagObj) : Bool :=
  match r.score with
  | Option.none => false
  | some sc =>
    let content := r.content.getD ""
    let text_score := score_text content
    if text_score < 0 && 4 ≤ sc then true
    else if 0 < text_score && sc ≤ 2 then true
    else false

/-- One output row of `inconsistent_sentiment_reviews.csv`. -/
structure FlagRow where
  reviewId : PyVal
  appId : PyVal
  score : Option Int
  content : Option String
  deriving Repr, DecidableEq

/-! ## Line-level streaming and error recovery

An input line, after `line.strip()`, is either blank, malformed
(`json.loads` raises — and, for the review transformer, the brace-slice
fallback `json.loads(line[start:end+1])` raises as well), or a parsed
object. -/

/-- A stripped input line as each streaming component classifies it. -/
inductive Line (α : Type) where
  | blank : Line α
  | bad : Line α
  | obj : α → Line α
  deriving Repr, DecidableEq

/-- One line of the flagger's `main` loop (lines 77–91): blank lines are
skipped, but `json.loads` is *not* wrapped in try/except, so a malformed
line raises `json.JSONDecodeError`. -/
def flaggerLineStep (acc : List FlagRow) : Line FlagObj → Except PyErr (List FlagRow)
  | .blank => .ok acc
  | .bad => .error .jsonDecodeError
  | .obj o =>
    .ok (if is_contradictory o then
           acc ++ [⟨o.reviewId, o.appId, o.score, o.content⟩]
         else acc)

/-- The flagger's `main` read loop over a whole input stream. -/
def flaggerRun (ls : List (Line FlagObj)) : Except PyErr (List FlagRow) :=
  ls.foldlM flaggerLineStep []

/-- `_iter_reviews_jsonl` + the `transform_reviews` body, per line: blank
and unrecoverable lines yield nothing, parsed objects are transformed. -/
def transformLine : Line RawReview → Option ProcessedReview
  | .blank => Option.none
  | .bad => Option.none
  | .obj o => some (transformReview o)

/-! ## KPI aggregator (compute_app_kpis.py) -/

/-- A CSV cell as `csv.DictWriter` receives it: a string, an int, or a
(rounded) float. -/
inductive Cell where
  | s : String → Cell
  | i : Int → Cell
  | q : ℚ → Cell
  deriving Repr, DecidableEq

/-- Round half to even on an exact rational (`round(x)` on the idealized
float). -/
def roundHalfEven (y : ℚ) : Int :=
  let n := ⌊y⌋
  let r := y - n
  if r < 1 / 2 then n
  else if 1 / 2 < r then n + 1
  else if n % 2 = 0 then n else n + 1

/-- Python `round(x, 3)` on the idealized float. -/
def pyRound3 (x : ℚ) : ℚ :=
  (roundHalfEven (x * 1000) : ℚ) / 1000

/-- Python `a or b` on values: `a` if truthy, else `b`. -/
def pyOr (a b : PyVal) : PyVal :=
  if pyTruthy a then a else b

/-- The fields of a processed review record that the KPI aggregator reads. -/
structure KpiObj where
  appId : PyVal
  score : PyVal
  at_iso : PyVal
  «at» : PyVal
  deriving Repr, DecidableEq

/-- The `AppAgg` dataclass accumulator. -/
structure AppAgg where
  app_id : String
  num_reviews : Nat
  rated_reviews : Nat
  score_sum : ℚ
  low_rated_reviews : Nat
  first_date : Option String
  last_date : Option String
  deriving Repr, DecidableEq

/-- A freshly constructed `AppAgg(app_id=...)`. -/
def AppAgg.init (app_id : String) : AppAgg :=
  ⟨app_id, 0, 0, 0, 0, Option.none, Option.none⟩

/-- `AppAgg.update` (compute_app_kpis.py lines 43–59). -/
def AppAgg.update (a : AppAgg) (score : Option Int) (date_str : Option String) : AppAgg :=
  let a := { a with num_reviews := a.num_reviews + 1 }
  let a :=
    match score with
    | some sc =>
      { a with rated_reviews := a.rated_reviews + 1
               score_sum := a.score_sum + (sc : ℚ)
               low_rated_reviews :=
                 if sc ≤ 2 then a.low_rated_reviews + 1 else a.low_rated_reviews }
    | Option.none => a
  match date_str with
  | some d =>
    { a with
      first_date :=
        match a.first_date with
        | Option.none => some d
        | some f => if d < f then some d else some f
      last_date :=
        match a.last_date with
        | Option.none => some d
        | some f => if f < d then some d else some f }
  | Option.none => a

/-- One output row of `app_kpis.csv`. -/
structure KpiRow where
  appId : String
  num_reviews : Cell
  avg_rating : Cell
  low_rating_pct : Cell
  first_review_date : Cell
  last_review_date : Cell
  deriving Repr, DecidableEq

/-- `AppAgg.to_row` (compute_app_kpis.py lines 61–79): the average and the
low-rating percentage are computed only when `rated_reviews > 0`,
otherwise the cells are empty strings. -/
def AppAgg.to_row (a : AppAgg) : KpiRow :=
  if 0 < a.rated_reviews then
    { appId := a.app_id
      num_reviews := .i a.num_reviews
      avg_rating := .q (pyRound3 (a.score_sum / (a.rated_reviews : ℚ)))
      low_rating_pct :=
        .q (pyRound3 (((a.low_rated_reviews : ℚ) / (a.rated_reviews : ℚ)) * 100))
      first_review_date := .s (a.first_date.getD "")
      last_review_date := .s (a.last_date.getD "") }
  else
    { appId := a.app_id
      num_reviews := .i a.num_reviews
      avg_rating := .s ""
      low_rating_pct := .s ""
      first_review_date := .s (a.first_date.getD "")
      last_review_date := .s (a.last_date.getD "") }

/-- `int(score) if isinstance(score, (int, float)) else None` (bool is a
subclass of int in Python). -/
def kpiScoreVal : PyVal → Option Int
  | .int n => some n
  | .bool b => some (if b then 1 else 0)
  | .float f => some (truncRat f)
  | _ => Option.none

/-- `obj.get("at_iso") or obj.get("at")`, kept when it is a truthy string
(the processed stream carries a string or null here; `update` only uses a
truthy value). -/
def kpiDate (o : KpiObj) : Option String :=
  match pyOr o.at_iso o.«at» with
  | .str s => if s = "" then Option.none else some s
  | _ => Option.none

/-- Update-in-place of the lazily created per-app aggregate, preserving
insertion order of the dictionary. -/
def updateAssoc (k : String) (sc : Option Int) (d : Option String) :
    List (String × AppAgg) → List (String × AppAgg)
  | [] => [(k, (AppAgg.init k).update sc d)]
  | (k', a) :: rest =>
    if k' = k then (k', a.update sc d) :: rest
    else (k', a) :: updateAssoc k sc d rest

/-- One parsed line of `compute_app_kpis` (lines 103–119): records without
a truthy `appId` are skipped, all others update their app's aggregate. -/
def kpiStep (st : List (String × AppAgg)) (o : KpiObj) : List (String × AppAgg) :=
  match o.appId with
  | .str app_id =>
    if app_id = "" then st
    else updateAssoc app_id (kpiScoreVal o.score) (kpiDate o) st
  | _ => st

/-- One stripped input line of `compute_app_kpis`: malformed JSON lines
are skipped by the `try/except`. -/
def kpiLineStep (st : List (String × AppAgg)) : Line KpiObj → List (String × AppAgg)
  | .blank => st
  | .bad => st
  | .obj o => kpiStep st o

/-- The KPI aggregation pass over a whole input stream. -/
def runKpi (ls : List (Line KpiObj)) : List (String × AppAgg) :=
  ls.foldl kpiLineStep []

/-- Insertion into a key-sorted association list (`sorted(aggregates.keys())`). -/
def insertSorted (x : String × AppAgg) : List (String × AppAgg) → List (String × AppAgg)
  | [] => [x]
  | y :: ys => if x.1 ≤ y.1 then x :: y :: ys else y :: insertSorted x ys

/-- Sort the aggregates by `appId` (the keys are pairwise distinct). -/
def sortByKey (l : List (String × AppAgg)) : List (String × AppAgg) :=
  l.foldr insertSorted []

/-- `compute_app_kpis`: the emitted CSV rows, sorted ascending by `appId`. -/
def compute_app_kpis (ls : List (Line KpiObj)) : List KpiRow :=
  (sortByKey (runKpi ls)).map (fun p => p.2.to_row)

/-! ## Daily metrics aggregator (compute_daily_metrics.py) -/

/-- The fields of a processed review record that the daily aggregator reads. -/
structure DailyObj where
  at_iso : PyVal
  «at» : PyVal
  score : PyVal
  deriving Repr, DecidableEq

/-- `dt.date().isoformat()`: `YYYY-MM-DD`. -/
def isoDate (t : DT) : String :=
  ⟨[digitChar (t.year / 1000), digitChar (t.year / 100), digitChar (t.year / 10),
    digitChar t.year, '-', digitChar (t.month / 10), digitChar t.month,
    '-', digitChar (t.day / 10), digitChar t.day]⟩

/-- `_extract_date` (compute_daily_metrics.py lines 31–56): prefer a
truthy `at_iso`, falling back to `at`; slice the first ten characters when
they are date-prefix-shaped (length ≥ 10 with dashes at positions 4 and
7), else try the exact `"%Y-%m-%d %H:%M:%S"` parse; anything else yields
`None`. -/
def extract_date (o : DailyObj) : Option String :=
  let raw := pyOr o.at_iso o.«at»
  if !pyTruthy raw then Option.none
  else
    match raw with
    | .str s =>
      if 10 ≤ s.data.length ∧ s.data.get? 4 = some '-' ∧ s.data.get? 7 = some '-' then
        some ⟨s.data.take 10⟩
      else
        match strptimeYmdHms s with
        | some t => some (isoDate t)
        | Option.none => Option.none
    | _ => Option.none

/-- The per-date accumulator `(count_reviews, count_rated, sum_scores)`. -/
structure DayAcc where
  count_reviews : Nat
  count_rated : Nat
  sum_scores : ℚ
  deriving Repr, DecidableEq

/-- `float(score)` when `isinstance(score, (int, float))`, else unrated. -/
def dailyScoreVal : PyVal → Option ℚ
  | .int n => some (n : ℚ)
  | .bool b => some (if b then 1 else 0)
  | .float f => some f
  | _ => Option.none

/-- Fold one rated/unrated review into a day's accumulator. -/
def DayAcc.add (a : DayAcc) (q : Option ℚ) : DayAcc :=
  { count_reviews := a.count_reviews + 1
    count_rated := a.count_rated + (if q.isSome then 1 else 0)
    sum_scores := a.sum_scores + q.getD 0 }

/-- `defaultdict` update of the per-date accumulator, preserving insertion
order. -/
def updateDay (d : String) (q : Option ℚ) :
    List (String × DayAcc) → List (String × DayAcc)
  | [] => [(d, DayAcc.add ⟨0, 0, 0⟩ q)]
  | (d', a) :: rest =>
    if d' = d then (d', a.add q) :: rest
    else (d', a) :: updateDay d q rest

/-- One parsed line of `compute_daily_metrics` (lines 79–94): a record
without an extractable date is skipped entirely. -/
def dailyStep (st : List (String × DayAcc)) (o : DailyObj) : List (String × DayAcc) :=
  match extract_date o with
  | Option.none => st
  | some d => updateDay d (dailyScoreVal o.score) st

/-- One stripped input line of `compute_daily_metrics`: malformed JSON
lines are skipped by the `try/except`. -/
def dailyLineStep (st : List (String × DayAcc)) : Line DailyObj → List (String × DayAcc)
  | .blank => st
  | .bad => st
  | .obj o => dailyStep st o

/-- The daily aggregation pass over a whole input stream. -/
def runDaily (ls : List (Line DailyObj)) : List (String × DayAcc) :=
  ls.foldl dailyLineStep []

/-- The `daily_num_reviews` value for a given date (0 when the date has no
row). -/
def dailyNumReviews (st : List (String × DayAcc)) (d : String) : Nat :=
  match st.find? (fun p => p.1 = d) with
  | some p => p.2.count_reviews
  | Option.none => 0

/-! ## Spec-side definitions -/

/-- Spec-side predicate, following the spec's words "`at_iso`, when
present, is a validated ISO-8601 timestamp normalized to UTC": the string
is the UTC isoformat of some valid datetime.  Used to compare the code's
output against the spec (it is not part of the code model). -/
def specIsoUtc (s : String) : Prop :=
  ∃ t : DT, validDT t = true ∧ s = isoformatUTC t

/-- Whether a stripped input line is a parsed record whose extracted date
is `d` (used to state what `daily_num_reviews` counts). -/
def lineHasDate (d : String) : Line DailyObj → Bool
  | .obj o => extract_date o == some d
  | _ => false

/-! ## Theorems for the claims -/

/-- C1, counterexample: a raw review whose `score` is the integer 7 is
emitted with `score = 7`, an out-of-range integer — `transform_reviews`
applies no `[1,5]` range check. -/
theorem c1_counterexample :
    (transformReview ⟨PyVal.none, PyVal.int 7, PyVal.none⟩).score = PyVal.int 7 ∧
      ¬((1 : Int) ≤ 7 ∧ (7 : Int) ≤ 5) := by
  decide

/-- C1, amended: for every processed review record emitted by
`transform_reviews`, the `score` field is an integer or null — never a
string — but no range check is applied, so out-of-range integers in the
input are emitted unchanged. -/
theorem c1_score_int_or_null (r : RawReview) :
    (transformReview r).score = PyVal.none ∨
      ∃ n : Int, (transformReview r).score = PyVal.int n := by
  rcases h : safe_int r.score with _ | n
  · left
    simp [transformReview, optIntVal, h]
  · right
    exact ⟨n, by simp [transformReview, optIntVal, h]⟩

/-- C5: a review with `at = "2025-11-08 13:54:14"` yields
`at_iso = "2025-11-08T13:54:14+00:00"` and `at_epoch = 1762610054`, the
Unix timestamp of that instant interpreted as UTC (days from the epoch to
2025-11-08 times 86400, plus the seconds of the day). -/
theorem c5_roundtrip :
    (transformReview ⟨PyVal.str "2025-11-08 13:54:14", PyVal.none, PyVal.none⟩).at_iso =
        PyVal.str "2025-11-08T13:54:14+00:00" ∧
      (transformReview ⟨PyVal.str "2025-11-08 13:54:14", PyVal.none, PyVal.none⟩).at_epoch =
        PyVal.int 1762610054 ∧
      (1762610054 : Int) = daysFromCivil 2025 11 8 * 86400 + (13 * 3600 + 54 * 60 + 14) := by
  decide

/-- C6: on the stream `[{appId:"a",score:5},{appId:"a",score:1},
{appId:"b",score:None}]` the KPI aggregator emits a row for `"a"` with
`num_reviews = 2`, `avg_rating = 3.0`, `low_rating_pct = 50.0`, and a row
for `"b"` with `num_reviews = 1` and empty `avg_rating` (the average and
percentage cells are filled only when `rated_reviews > 0`). -/
theorem c6_kpi_concrete :
    compute_app_kpis
        [Line.obj ⟨PyVal.str "a", PyVal.int 5, PyVal.none, PyVal.none⟩,
         Line.obj ⟨PyVal.str "a", PyVal.int 1, PyVal.none, PyVal.none⟩,
         Line.obj ⟨PyVal.str "b", PyVal.none, PyVal.none, PyVal.none⟩] =
      [⟨"a", Cell.i 2, Cell.q 3, Cell.q 50, Cell.s "", Cell.s ""⟩,
       ⟨"b", Cell.i 1, Cell.s "", Cell.s "", Cell.s "", Cell.s ""⟩] := by
  norm_num [compute_app_kpis, runKpi, kpiLineStep, kpiStep, kpiScoreVal, kpiDate,
    pyOr, pyTruthy, updateAssoc, AppAgg.init, AppAgg.update, sortByKey, insertSorted,
    AppAgg.to_row, pyRound3, roundHalfEven, List.foldl, List.foldr,
    (by decide : (['a'] : List Char) ≤ ['b'])]

/-- C8: `safe_int` always returns an integer or null and never raises:
whenever Python's `int()` conversion succeeds the integer is returned, and
for `None` or any value on which `int()` raises, the result is null. -/
theorem c8_safe_int_total (v : PyVal) :
    (∃ n : Int, safe_int v = some n ∧ pyInt v = Except.ok n) ∨
      (safe_int v = Option.none ∧ (v = PyVal.none ∨ ∃ e, pyInt v = Except.error e)) := by
  cases v with
  | none => exact Or.inr ⟨rfl, Or.inl rfl⟩
  | bool b => exact Or.inl ⟨_, rfl, rfl⟩
  | int n => exact Or.inl ⟨n, rfl, rfl⟩
  | float q => exact Or.inl ⟨_, rfl, rfl⟩
  | str s =>
    rcases h : parseIntStr s with n | e
    · exact Or.inr ⟨by simp [safe_int, pyInt, h], Or.inr ⟨n, by simp [pyInt, h]⟩⟩
    · exact Or.inl ⟨e, by simp [safe_int, pyInt, h], by simp [pyInt, h]⟩

/-- C3, counterexample: the Sentiment Consistency Flagger's read loop
calls `json.loads` without a `try/except`, so a stream consisting of one
malformed line makes the run abort with a `JSONDecodeError`. -/
theorem c3_counterexample :
    flaggerRun [Line.bad] = Except.error PyErr.jsonDecodeError := by
  rfl

/-- C3, amended: the Review Transformer, KPI Aggregator and Daily Metrics
Aggregator recover locally from a malformed record (the line is skipped
and the run continues), but the Sentiment Consistency Flagger does not
guard `json.loads` and aborts on the first malformed JSON line. -/
theorem c3_recovery (s₁ : List (String × AppAgg)) (s₂ : List (String × DayAcc))
    (ls : List (Line FlagObj)) :
    kpiLineStep s₁ Line.bad = s₁ ∧
      dailyLineStep s₂ Line.bad = s₂ ∧
      transformLine (Line.bad : Line RawReview) = Option.none ∧
      flaggerRun (Line.bad :: ls) = Except.error PyErr.jsonDecodeError := by
  exact ⟨rfl, rfl, rfl, rfl⟩

/-- C7: a review with non-null score `n` is flagged as contradictory
exactly when (only negative terms match the lower-cased content and
`n ≥ 4`) or (only positive terms match and `n ≤ 2`); a review with null
score is never flagged (its content notwithstanding). -/
theorem c7_flagger_characterization (rid aid : PyVal) (n : Int) (c : Option String) :
    (is_contradictory ⟨rid, aid, some n, c⟩ = true ↔
      (NEGATIVE_TERMS.any (fun term => pyIn term (asciiLower (c.getD ""))) = true ∧
       POSITIVE_TERMS.any (fun term => pyIn term (asciiLower (c.getD ""))) = false ∧ 4 ≤ n) ∨
      (POSITIVE_TERMS.any (fun term => pyIn term (asciiLower (c.getD ""))) = true ∧
       NEGATIVE_TERMS.any (fun term => pyIn term (asciiLower (c.getD ""))) = false ∧ n ≤ 2)) ∧
    is_contradictory ⟨rid, aid, Option.none, c⟩ = false := by
  constructor
  · cases hneg : NEGATIVE_TERMS.any (fun term => pyIn term (asciiLower (c.getD ""))) <;>
      cases hpos : POSITIVE_TERMS.any (fun term => pyIn term (asciiLower (c.getD ""))) <;>
      simp [is_contradictory, score_text, hneg, hpos]
  · rfl

/-! ### Helper lemmas about digit strings -/

theorem dropWhile_eq_self_of (p : Char → Bool) (l : List Char)
    (h : ∀ c ∈ l, p c = false) : l.dropWhile p = l := by
  cases l with
  | nil => rfl
  | cons c rest => simp [List.dropWhile, h c (by simp)]

theorem pySpace_of_isDigit (c : Char) (h : c.isDigit = true) : pySpace c = false := by
  simp only [pySpace, Bool.or_eq_false_iff, beq_eq_false_iff_ne, ne_eq]
  refine ⟨⟨⟨⟨⟨?_, ?_⟩, ?_⟩, ?_⟩, ?_⟩, ?_⟩ <;> rintro rfl <;> exact absurd h (by decide)

theorem pyStripList_all_digits (l : List Char)
    (h : ∀ c ∈ l, c.isDigit = true) : pyStripList l = l := by
  have h1 : l.dropWhile pySpace = l :=
    dropWhile_eq_self_of _ _ fun c hc => pySpace_of_isDigit c (h c hc)
  have h2 : l.reverse.dropWhile pySpace = l.reverse :=
    dropWhile_eq_self_of _ _ fun c hc =>
      pySpace_of_isDigit c (h c (List.mem_reverse.mp hc))
  simp [pyStripList, h1, h2]

theorem goDigits_all_digits (l : List Char) (acc : Nat)
    (h : ∀ c ∈ l, c.isDigit = true) : ∃ m, goDigits acc l = some m := by
  induction l generalizing acc with
  | nil => exact ⟨acc, rfl⟩
  | cons c rest ih =>
    have hc : c.isDigit = true := h c (by simp)
    have hne : ¬(c = '_') := by rintro rfl; exact absurd hc (by decide)
    obtain ⟨m, hm⟩ := ih (acc * 10 + dval c) (fun d hd => h d (by simp [hd]))
    refine ⟨m, ?_⟩
    rw [goDigits.eq_def]
    dsimp only
    rw [if_neg hne, if_pos hc]
    exact hm

theorem parseIntStr_digits (s : String) (h1 : s.data ≠ [])
    (h2 : ∀ c ∈ s.data, c.isDigit = true) :
    ∃ n : Int, 0 ≤ n ∧ parseIntStr s = .ok n := by
  have hstrip : pyStripList s.data = s.data := pyStripList_all_digits _ h2
  rcases hd : s.data with _ | ⟨c, rest⟩
  · exact absurd hd h1
  · have hc : c.isDigit = true := h2 c (by simp [hd])
    have hplus : ¬(c = '+') := by rintro rfl; exact absurd hc (by decide)
    have hminus : ¬(c = '-') := by rintro rfl; exact absurd hc (by decide)
    obtain ⟨m, hm⟩ := goDigits_all_digits rest (dval c)
      (fun d hdm => h2 d (by simp [hd, hdm]))
    refine ⟨m, Int.ofNat_nonneg m, ?_⟩
    rw [hd] at hstrip
    rw [parseIntStr, hd, hstrip]
    dsimp only
    rw [if_neg hplus, if_neg hminus]
    simp [digitsU, hc, hm]

theorem searchDigits_nonempty (s : String) (h : searchDigitsClass s = true) :
    (stripNonDigits s).data ≠ [] ∧ ∀ c ∈ (stripNonDigits s).data, c.isDigit = true := by
  constructor
  · simp only [searchDigitsClass, List.any_eq_true, List.mem_filter] at h
    obtain ⟨c, ⟨hcs, hcomma⟩, hclass⟩ := h
    have hdig : c.isDigit = true := by
      rcases Bool.or_eq_true_iff.mp hclass with hd | he
      · exact hd
      · exact absurd (by simpa using he) (by simpa using hcomma)
    have : c ∈ (stripNonDigits s).data := by
      simp [stripNonDigits, List.mem_filter, hcs, hdig]
    intro hempty
    rw [hempty] at this
    exact absurd this (List.not_mem_nil c)
  · intro c hc
    simp only [stripNonDigits, List.mem_filter] at hc
    exact hc.2

/-- C4, counterexample: an existing numeric `minInstalls` of −5 passes
through `normalize_installs` unchecked and is emitted as the negative
integer −5, and an existing non-numeric truthy `minInstalls` of `"abc"`
makes `int("abc")` raise a `ValueError` — so the output is neither always
non-negative nor exception-free. -/
theorem c4_counterexample :
    normalize_installs ⟨PyVal.int (-5), PyVal.none, PyVal.none⟩ =
        Except.ok (PyVal.int (-5), PyVal.none) ∧
      ¬(0 ≤ (-5 : Int)) ∧
      normalize_installs ⟨PyVal.str "abc", PyVal.none, PyVal.none⟩ =
        Except.error PyErr.valueError := by
  exact ⟨rfl, by decide, rfl⟩

/-- C4, amended: when the raw record has no numeric `minInstalls` /
`realInstalls` fields and a string `installs` field, `normalize_installs`
never raises and emits `minInstalls` as either null or a non-negative
integer parsed from the digits of the install string (existing numeric
fields, by contrast, are passed through `int()` unchecked). -/
theorem c4_installs_string_parse (a : RawApp) (s : String)
    (h1 : a.minInstalls = PyVal.none) (h2 : a.realInstalls = PyVal.none)
    (h3 : a.installs = PyVal.str s) :
    ∃ mi, normalize_installs a = Except.ok (mi, PyVal.none) ∧
      (mi = PyVal.none ∨ ∃ n : Int, mi = PyVal.int n ∧ 0 ≤ n) := by
  obtain ⟨m0, r0, i0⟩ := a
  cases h1; cases h2; cases h3
  cases hs : searchDigitsClass s with
  | false =>
    refine ⟨PyVal.none, ?_, Or.inl rfl⟩
    simp only [normalize_installs, pyTruthy, hs]
    rfl
  | true =>
    obtain ⟨hne, hdig⟩ := searchDigits_nonempty s hs
    obtain ⟨n, hn0, hok⟩ := parseIntStr_digits _ (by simpa using hne) hdig
    refine ⟨PyVal.int n, ?_, Or.inr ⟨n, rfl, hn0⟩⟩
    simp only [normalize_installs, pyTruthy, hs, hok]
    rfl

/-- C4, witness: the spec's own example `"10,000+"` parses to 10000. -/
theorem c4_witness :
    ∃ mi, normalize_installs ⟨PyVal.none, PyVal.none, PyVal.str "10,000+"⟩ =
        Except.ok (mi, PyVal.none) ∧
      (mi = PyVal.none ∨ ∃ n : Int, mi = PyVal.int n ∧ 0 ≤ n) :=
  c4_installs_string_parse ⟨PyVal.none, PyVal.none, PyVal.str "10,000+"⟩ "10,000+" rfl rfl rfl

/-! ### Helper lemmas about the timestamp parsers -/

theorem strptimeYmdHms_valid (s : String) (t : DT)
    (h : strptimeYmdHms s = some t) : validDT t = true := by
  unfold strptimeYmdHms at h
  rcases hr : rawYmdHms s.data with _ | u <;> rw [hr] at h <;> dsimp only at h
  · exact absurd h (by simp)
  · cases hv : validDT u <;> simp only [hv, if_true, if_false, Bool.false_eq_true] at h
    · exact absurd h (by simp)
    · cases Option.some.inj h
      exact hv

theorem strptimeBdY_valid (names : List String) (s : String) (t : DT)
    (h : strptimeBdY names s = some t) : validDT t = true := by
  unfold strptimeBdY at h
  rcases hr : rawBdY names s.data with _ | u <;> rw [hr] at h <;> dsimp only at h
  · exact absurd h (by simp)
  · cases hv : validDT u <;> simp only [hv, if_true, if_false, Bool.false_eq_true] at h
    · exact absurd h (by simp)
    · cases Option.some.inj h
      exact hv

theorem isoformatUTC_length (t : DT) : (isoformatUTC t).length = 25 := rfl

/-- C2, counterexample: a review whose `at` is the unparseable string
`"garbage"` is emitted with `at_iso = "garbage"` — the raw trimmed string,
not a validated ISO-8601 UTC timestamp. -/
theorem c2_counterexample :
    (transformAt (PyVal.str "garbage")).1 = PyVal.str "garbage" ∧
      ¬specIsoUtc "garbage" := by
  refine ⟨rfl, ?_⟩
  rintro ⟨t, -, heq⟩
  exact absurd (isoformatUTC_length t ▸ congrArg String.length heq) (by decide)

/-- C2, amended: whenever `at_iso` is non-null it is either the UTC
isoformat of a validated datetime (always the case when the exact parse or
one of the recognized human-date formats succeeded) or, when every parse
fails, the original `at` string trimmed of whitespace. -/
theorem c2_at_iso_iso_or_trimmed (v : PyVal) (t : String)
    (h : (transformAt v).1 = PyVal.str t) :
    specIsoUtc t ∨ ∃ s, v = PyVal.str s ∧ t = pyStrip s := by
  cases v with
  | str s =>
    by_cases hs : s = ""
    · subst hs
      exact absurd h (by simp [transformAt])
    · simp only [transformAt] at h
      rw [if_pos hs] at h
      rcases he : strptimeYmdHms s with _ | dt <;> rw [he] at h
      · simp only [parse_human_datetime, if_neg hs, he] at h
        rcases hb : strptimeBdY monthAbbrevs s with _ | dt2 <;> rw [hb] at h
        · rcases hB : strptimeBdY monthFulls s with _ | dt3 <;> rw [hB] at h
          · exact Or.inr ⟨s, rfl, (PyVal.str.inj h).symm⟩
          · exact Or.inl ⟨dt3, strptimeBdY_valid _ _ _ hB, (PyVal.str.inj h).symm⟩
        · exact Or.inl ⟨dt2, strptimeBdY_valid _ _ _ hb, (PyVal.str.inj h).symm⟩
      · exact Or.inl ⟨dt, strptimeYmdHms_valid _ _ he, (PyVal.str.inj h).symm⟩
  | none => exact absurd h (by simp [transformAt])
  | bool b => exact absurd h (by simp [transformAt])
  | int n => exact absurd h (by simp [transformAt])
  | float q => exact absurd h (by simp [transformAt])

/-- C2, witness: the exact-format parse of `"2025-11-08 13:54:14"`. -/
theorem c2_witness :
    specIsoUtc "2025-11-08T13:54:14+00:00" ∨
      ∃ s, PyVal.str "2025-11-08 13:54:14" = PyVal.str s ∧
        "2025-11-08T13:54:14+00:00" = pyStrip s :=
  c2_at_iso_iso_or_trimmed (PyVal.str "2025-11-08 13:54:14")
    "2025-11-08T13:54:14+00:00" (by rfl)

/-- C9: `at_epoch` is non-null only when the raw `at` value is a string
that parses with the exact `"%Y-%m-%d %H:%M:%S"` format (and then `at_iso`
is the corresponding ISO string, so `at_epoch` non-null implies `at_iso`
non-null); whenever the exact parse fails, `at_epoch` is null — yet
`at_iso` can still be non-null, as the human-date input `"Jan 5, 2026"`
shows, so the converse implication fails. -/
theorem c9_epoch_only_exact (v : PyVal) :
    ((transformAt v).2 ≠ PyVal.none →
      ∃ s dt, v = PyVal.str s ∧ strptimeYmdHms s = some dt ∧
        (transformAt v).1 = PyVal.str (isoformatUTC dt) ∧
        (transformAt v).2 = PyVal.int (epochOf dt)) ∧
    (∀ s, v = PyVal.str s → strptimeYmdHms s = Option.none →
      (transformAt v).2 = PyVal.none) ∧
    (transformAt (PyVal.str "Jan 5, 2026")).1 =
      PyVal.str "2026-01-05T00:00:00+00:00" ∧
    (transformAt (PyVal.str "Jan 5, 2026")).2 = PyVal.none := by
  refine ⟨?_, ?_, by rfl, by rfl⟩
  · intro hne
    cases v with
    | str s =>
      by_cases hs : s = ""
      · subst hs
        exact absurd rfl hne
      · simp only [transformAt] at hne ⊢
        rw [if_pos hs] at hne ⊢
        rcases he : strptimeYmdHms s with _ | dt <;> rw [he] at hne <;>
          dsimp only at hne ⊢
        · exact absurd rfl hne
        · exact ⟨s, dt, rfl, he, rfl, rfl⟩
    | none => exact absurd rfl hne
    | bool b => exact absurd rfl hne
    | int n => exact absurd rfl hne
    | float q => exact absurd rfl hne
  · intro s hv he
    subst hv
    by_cases hs : s = ""
    · subst hs
      rfl
    · simp only [transformAt]
      rw [if_pos hs, he]

/-- C9, witness: `"2025-11-08 13:54:14"` takes the exact-parse path and
`"Jan 5, 2026"` the fallback path. -/
theorem c9_witness :
    (∃ s dt, PyVal.str "2025-11-08 13:54:14" = PyVal.str s ∧
      strptimeYmdHms s = some dt ∧
      (transformAt (PyVal.str "2025-11-08 13:54:14")).1 =
        PyVal.str (isoformatUTC dt) ∧
      (transformAt (PyVal.str "2025-11-08 13:54:14")).2 =
        PyVal.int (epochOf dt)) ∧
    (transformAt (PyVal.str "Jan 5, 2026")).2 = PyVal.none :=
  ⟨(c9_epoch_only_exact (PyVal.str "2025-11-08 13:54:14")).1 (by decide),
   (c9_epoch_only_exact (PyVal.str "Jan 5, 2026")).2.1 "Jan 5, 2026" rfl (by rfl)⟩

/-! ### Helper lemmas for the daily aggregator -/

theorem dailyNumReviews_updateDay (st : List (String × DayAcc)) (d d' : String)
    (q : Option ℚ) :
    dailyNumReviews (updateDay d' q st) d =
      dailyNumReviews st d + (if d' = d then 1 else 0) := by
  induction st with
  | nil =>
    by_cases hdd : d' = d <;>
      simp [updateDay, dailyNumReviews, DayAcc.add, List.find?, hdd]
  | cons ea rest ih =>
    obtain ⟨e, a⟩ := ea
    rw [updateDay]
    by_cases hed : e = d'
    · rw [if_pos hed]
      subst hed
      by_cases hdd : e = d <;>
        simp [dailyNumReviews, DayAcc.add, List.find?, hdd]
    · rw [if_neg hed]
      by_cases hede : e = d
      · subst hede
        have hdd : ¬(d' = e) := fun hc => hed hc.symm
        simp [dailyNumReviews, List.find?, hdd]
      · simpa [dailyNumReviews, List.find?, hede] using ih

theorem dailyNumReviews_foldl (ls : List (Line DailyObj))
    (st : List (String × DayAcc)) (d : String) :
    dailyNumReviews (ls.foldl dailyLineStep st) d =
      dailyNumReviews st d + ls.countP (lineHasDate d) := by
  induction ls generalizing st with
  | nil => simp
  | cons l rest ih =>
    have hstep : dailyNumReviews (dailyLineStep st l) d =
        dailyNumReviews st d + (if lineHasDate d l then 1 else 0) := by
      cases l with
      | blank => simp [dailyLineStep, lineHasDate]
      | bad => simp [dailyLineStep, lineHasDate]
      | obj o =>
        rcases he : extract_date o with _ | d'
        · simp [dailyLineStep, dailyStep, he, lineHasDate]
        · rw [dailyLineStep, dailyStep, he, dailyNumReviews_updateDay]
          simp [lineHasDate, he]
    rw [List.foldl_cons, ih, hstep, List.countP_cons]
    by_cases hl : lineHasDate d l = true <;> (simp [hl]; try omega)

/-- C10: a review record from which no date can be extracted is skipped
entirely by the Daily Metrics Aggregator — appending it to any input
stream leaves the aggregation state (hence every output row) unchanged —
and `daily_num_reviews` for each date counts exactly the records whose
extracted date is that date. -/
theorem c10_daily_skip_and_count (ls : List (Line DailyObj)) (o : DailyObj)
    (d : String) (h : extract_date o = Option.none) :
    runDaily (ls ++ [Line.obj o]) = runDaily ls ∧
      dailyNumReviews (runDaily ls) d = ls.countP (lineHasDate d) := by
  constructor
  · simp [runDaily, List.foldl_append, dailyLineStep, dailyStep, h]
  · simpa [dailyNumReviews, List.find?] using dailyNumReviews_foldl ls [] d

/-- C10, witness: a record with a score but no date is skipped; the one
dated record is counted for its date. -/
theorem c10_witness :
    runDaily [Line.obj ⟨PyVal.str "2025-01-01T00:00:00+00:00", PyVal.none, PyVal.int 4⟩,
              Line.obj ⟨PyVal.none, PyVal.none, PyVal.int 5⟩] =
      runDaily [Line.obj ⟨PyVal.str "2025-01-01T00:00:00+00:00", PyVal.none, PyVal.int 4⟩] ∧
    dailyNumReviews
        (runDaily [Line.obj ⟨PyVal.str "2025-01-01T00:00:00+00:00", PyVal.none, PyVal.int 4⟩])
        "2025-01-01" =
      List.countP (lineHasDate "2025-01-01")
        [Line.obj ⟨PyVal.str "2025-01-01T00:00:00+00:00", PyVal.none, PyVal.int 4⟩] :=
  c10_daily_skip_and_count
    [Line.obj ⟨PyVal.str "2025-01-01T00:00:00+00:00", PyVal.none, PyVal.int 4⟩]
    ⟨PyVal.none, PyVal.none, PyVal.int 5⟩ "2025-01-01" (by rfl)

end Pipeline
